import Mathlib

/-!
# Verification of the PPT video-injector placement pipeline

Shallow embedding of `app.py`: the placement calculator, the thumbnail
sizing, the dimension prober and the batch upload loop.  Python float
arithmetic is modelled exactly over `ℚ`; Python `int()` truncation of a
non-negative value is `Int.floor`.
-/

namespace PptAddVideo

/-- Pixel-density constant used by the conversion
`video_width_in = video_width_px / 96.0` (app.py line 114). -/
def PIXELS_PER_INCH : ℚ := 96

/-- EMU-per-inch constant used by `prs.slide_width / 914400` (app.py line 118). -/
def EMU_PER_INCH : ℚ := 914400

/-- Pixel-to-inch conversion (app.py lines 114-115). -/
def pxToIn (px : ℕ) : ℚ := (px : ℚ) / PIXELS_PER_INCH

/-- Slide-dimension conversion from EMU (app.py lines 118-119). -/
def emuToIn (emu : ℕ) : ℚ := (emu : ℚ) / EMU_PER_INCH

/-- The final placement rectangle, in inches (the values passed to
`add_movie` at app.py lines 146-154). -/
structure PlacementRect where
  left_in : ℚ
  top_in : ℚ
  width_in : ℚ
  height_in : ℚ
deriving DecidableEq, Repr

/-- `scale_factor = min(slide_width_in / video_width_in, slide_height_in /
video_height_in) * 0.9` (app.py line 128). -/
def scale_factor (vw vh sW sH : ℚ) : ℚ :=
  min (sW / vw) (sH / vh) * (9 / 10)

/-- The placement calculator (app.py lines 113-139): convert pixels to
inches, bottom-right anchor, downscale by `scale_factor` when the video
exceeds the slide, re-anchor bottom-right after scaling, then clamp
`left`/`top` to be non-negative. -/
def place (wpx hpx : ℕ) (sW sH : ℚ) : PlacementRect :=
  if pxToIn wpx > sW ∨ pxToIn hpx > sH then
    { left_in := max 0 (sW - pxToIn wpx * scale_factor (pxToIn wpx) (pxToIn hpx) sW sH)
      top_in := max 0 (sH - pxToIn hpx * scale_factor (pxToIn wpx) (pxToIn hpx) sW sH)
      width_in := pxToIn wpx * scale_factor (pxToIn wpx) (pxToIn hpx) sW sH
      height_in := pxToIn hpx * scale_factor (pxToIn wpx) (pxToIn hpx) sW sH }
  else
    { left_in := max 0 (sW - pxToIn wpx)
      top_in := max 0 (sH - pxToIn hpx)
      width_in := pxToIn wpx
      height_in := pxToIn hpx }

example : place 3840 2160 10 10 =
    { left_in := 1, top_in := 79/16, width_in := 9, height_in := 81/16 } := by
  norm_num [place, pxToIn, scale_factor, PIXELS_PER_INCH, min_def, max_def]

/-- Evaluating the placement twice on the same inputs (app.py is stateless
between the two computations). -/
def placeTwice (wpx hpx : ℕ) (sW sH : ℚ) : PlacementRect × PlacementRect :=
  (place wpx hpx sW sH, place wpx hpx sW sH)

lemma pxToIn_pos {px : ℕ} (h : 0 < px) : 0 < pxToIn px := by
  unfold pxToIn PIXELS_PER_INCH
  positivity

lemma scale_mul_le_width {vw vh sW sH : ℚ} (hvw : 0 < vw) :
    vw * scale_factor vw vh sW sH ≤ 9 / 10 * sW := by
  unfold scale_factor
  have h1 : min (sW / vw) (sH / vh) * (9 / 10) ≤ sW / vw * (9 / 10) :=
    mul_le_mul_of_nonneg_right (min_le_left _ _) (by norm_num)
  have h2 : vw * (min (sW / vw) (sH / vh) * (9 / 10)) ≤ vw * (sW / vw * (9 / 10)) :=
    mul_le_mul_of_nonneg_left h1 hvw.le
  have h3 : vw * (sW / vw * (9 / 10)) = 9 / 10 * sW := by
    field_simp
    ring
  linarith

lemma scale_mul_le_height {vw vh sW sH : ℚ} (hvh : 0 < vh) :
    vh * scale_factor vw vh sW sH ≤ 9 / 10 * sH := by
  unfold scale_factor
  have h1 : min (sW / vw) (sH / vh) * (9 / 10) ≤ sH / vh * (9 / 10) :=
    mul_le_mul_of_nonneg_right (min_le_right _ _) (by norm_num)
  have h2 : vh * (min (sW / vw) (sH / vh) * (9 / 10)) ≤ vh * (sH / vh * (9 / 10)) :=
    mul_le_mul_of_nonneg_left h1 hvh.le
  have h3 : vh * (sH / vh * (9 / 10)) = 9 / 10 * sH := by
    field_simp
    ring
  linarith

lemma max_sub_add_le {a b : ℚ} (h : b ≤ a) : max 0 (a - b) + b ≤ a := by
  rcases max_cases 0 (a - b) with ⟨h1, _⟩ | ⟨h1, _⟩ <;> rw [h1] <;> linarith

lemma max_sub_add_eq {a b : ℚ} (h : b ≤ a) : max 0 (a - b) + b = a := by
  rw [max_eq_right (sub_nonneg.mpr h)]
  ring

/-- C1: for positive intrinsic pixel sizes (the fallback 1920x1080 included)
and positive slide geometry, the placed rectangle never exceeds the slide:
`left + width ≤ slideWidth` and `top + height ≤ slideHeight`. -/
theorem place_within_bounds (wpx hpx : ℕ) (sW sH : ℚ) (hw : 0 < wpx) (hh : 0 < hpx)
    (hsW : 0 < sW) (hsH : 0 < sH) :
    (place wpx hpx sW sH).left_in + (place wpx hpx sW sH).width_in ≤ sW ∧
    (place wpx hpx sW sH).top_in + (place wpx hpx sW sH).height_in ≤ sH := by
  have hvw := pxToIn_pos hw
  have hvh := pxToIn_pos hh
  unfold place
  split_ifs with hcond
  · refine ⟨max_sub_add_le ?_, max_sub_add_le ?_⟩
    · have := @scale_mul_le_width (pxToIn wpx) (pxToIn hpx) sW sH hvw
      linarith
    · have := @scale_mul_le_height (pxToIn wpx) (pxToIn hpx) sW sH hvh
      linarith
  · push_neg at hcond
    exact ⟨max_sub_add_le hcond.1, max_sub_add_le hcond.2⟩

theorem place_within_bounds_witness :
    (place 3840 2160 10 10).left_in + (place 3840 2160 10 10).width_in ≤ 10 ∧
    (place 3840 2160 10 10).top_in + (place 3840 2160 10 10).height_in ≤ 10 :=
  place_within_bounds 3840 2160 10 10 (by norm_num) (by norm_num) (by norm_num) (by norm_num)

/-- C2: the placement never distorts — `width/height` equals the intrinsic
pixel aspect ratio `widthPx/heightPx` exactly (hence within any tolerance). -/
theorem place_preserves_aspect (wpx hpx : ℕ) (sW sH : ℚ) (hw : 0 < wpx) (hh : 0 < hpx)
    (hsW : 0 < sW) (hsH : 0 < sH) :
    (place wpx hpx sW sH).width_in / (place wpx hpx sW sH).height_in = (wpx : ℚ) / (hpx : ℚ) := by
  have hvw := pxToIn_pos hw
  have hvh := pxToIn_pos hh
  have hbase : pxToIn wpx / pxToIn hpx = (wpx : ℚ) / (hpx : ℚ) := by
    have hq : ((hpx : ℚ)) ≠ 0 := Nat.cast_ne_zero.mpr hh.ne'
    unfold pxToIn PIXELS_PER_INCH
    rw [div_div_div_cancel_right₀]
    · norm_num
  unfold place
  split_ifs with hcond
  · have hs : 0 < scale_factor (pxToIn wpx) (pxToIn hpx) sW sH := by
      unfold scale_factor
      exact mul_pos (lt_min (div_pos hsW hvw) (div_pos hsH hvh)) (by norm_num)
    show pxToIn wpx * scale_factor (pxToIn wpx) (pxToIn hpx) sW sH /
        (pxToIn hpx * scale_factor (pxToIn wpx) (pxToIn hpx) sW sH) = _
    rw [mul_div_mul_right _ _ hs.ne']
    exact hbase
  · exact hbase

theorem place_preserves_aspect_witness :
    (place 3840 2160 10 10).width_in / (place 3840 2160 10 10).height_in
      = ((3840 : ℕ) : ℚ) / ((2160 : ℕ) : ℚ) :=
  place_preserves_aspect 3840 2160 10 10 (by norm_num) (by norm_num) (by norm_num) (by norm_num)

/-- C3 (counterexample): at intrinsic 3840x2160 px on a 10x10-inch slide the
overflow branch is taken, yet the result touches the slide edge exactly:
`left + width < slideWidth` fails, refuting the claim that the scaled
rectangle sits strictly inside the slide bounds. -/
theorem place_margin_cex :
    (pxToIn 3840 > (10 : ℚ) ∨ pxToIn 2160 > (10 : ℚ)) ∧
    ¬((place 3840 2160 10 10).left_in + (place 3840 2160 10 10).width_in < 10) := by
  norm_num [place, pxToIn, scale_factor, PIXELS_PER_INCH, min_def, max_def]

/-- C3 (amended): when the candidate exceeds the slide, both dimensions are
scaled uniformly by `min(slideW/candW, slideH/candH) * 0.9`, which makes the
final width and height strictly smaller than the slide's; but because the
origin is re-anchored bottom-right after scaling, the rectangle touches the
bottom-right edge exactly: `left + width = slideWidth` and
`top + height = slideHeight` (not strictly inside). -/
theorem place_overflow_scaled (wpx hpx : ℕ) (sW sH : ℚ) (hw : 0 < wpx) (hh : 0 < hpx)
    (hsW : 0 < sW) (hsH : 0 < sH) (hover : pxToIn wpx > sW ∨ pxToIn hpx > sH) :
    (place wpx hpx sW sH).width_in
        = pxToIn wpx * (min (sW / pxToIn wpx) (sH / pxToIn hpx) * (9 / 10)) ∧
    (place wpx hpx sW sH).height_in
        = pxToIn hpx * (min (sW / pxToIn wpx) (sH / pxToIn hpx) * (9 / 10)) ∧
    (place wpx hpx sW sH).width_in < sW ∧
    (place wpx hpx sW sH).height_in < sH ∧
    (place wpx hpx sW sH).left_in + (place wpx hpx sW sH).width_in = sW ∧
    (place wpx hpx sW sH).top_in + (place wpx hpx sW sH).height_in = sH := by
  have hvw := pxToIn_pos hw
  have hvh := pxToIn_pos hh
  have hwlt : pxToIn wpx * scale_factor (pxToIn wpx) (pxToIn hpx) sW sH < sW := by
    have := @scale_mul_le_width (pxToIn wpx) (pxToIn hpx) sW sH hvw
    linarith
  have hhlt : pxToIn hpx * scale_factor (pxToIn wpx) (pxToIn hpx) sW sH < sH := by
    have := @scale_mul_le_height (pxToIn wpx) (pxToIn hpx) sW sH hvh
    linarith
  unfold place
  rw [if_pos hover]
  exact ⟨rfl, rfl, hwlt, hhlt, max_sub_add_eq hwlt.le, max_sub_add_eq hhlt.le⟩

theorem place_overflow_scaled_witness :
    (pxToIn 3840 > (10 : ℚ) ∨ pxToIn 2160 > (10 : ℚ)) ∧
    ((place 3840 2160 10 10).width_in
        = pxToIn 3840 * (min ((10 : ℚ) / pxToIn 3840) ((10 : ℚ) / pxToIn 2160) * (9 / 10)) ∧
     (place 3840 2160 10 10).height_in
        = pxToIn 2160 * (min ((10 : ℚ) / pxToIn 3840) ((10 : ℚ) / pxToIn 2160) * (9 / 10)) ∧
     (place 3840 2160 10 10).width_in < 10 ∧
     (place 3840 2160 10 10).height_in < 10 ∧
     (place 3840 2160 10 10).left_in + (place 3840 2160 10 10).width_in = 10 ∧
     (place 3840 2160 10 10).top_in + (place 3840 2160 10 10).height_in = 10) :=
  ⟨by norm_num [pxToIn, PIXELS_PER_INCH],
   place_overflow_scaled 3840 2160 10 10 (by norm_num) (by norm_num) (by norm_num) (by norm_num)
     (by norm_num [pxToIn, PIXELS_PER_INCH])⟩

/-- C4: the origin is always the bottom-right anchor computed from the final
(post-scaling) size, clamped to be non-negative:
`left = max 0 (slideWidth - width)` and `top = max 0 (slideHeight - height)`. -/
theorem place_bottom_right_anchor (wpx hpx : ℕ) (sW sH : ℚ) :
    (place wpx hpx sW sH).left_in = max 0 (sW - (place wpx hpx sW sH).width_in) ∧
    (place wpx hpx sW sH).top_in = max 0 (sH - (place wpx hpx sW sH).height_in) := by
  unfold place
  split_ifs <;> exact ⟨rfl, rfl⟩

/-- C9: the placement computation is deterministic — evaluating it twice on
identical inputs yields bit-identical rectangles (pure function of its
arguments, no hidden state in the embedding). -/
theorem place_deterministic (wpx hpx : ℕ) (sW sH : ℚ) :
    (placeTwice wpx hpx sW sH).1 = (placeTwice wpx hpx sW sH).2 := rfl

/-- `aspect_ratio = video_width_px / video_height_px` (app.py line 104). -/
def aspect_ratio (wpx hpx : ℕ) : ℚ := (wpx : ℚ) / (hpx : ℚ)

/-- Thumbnail sizing (app.py lines 105-108): landscape (`aspect_ratio > 1`)
gets `(320, int(320 / aspect_ratio))`, portrait or square gets
`(int(240 * aspect_ratio), 240)`; Python `int()` truncates, which on these
non-negative values is the floor. -/
def thumb_size (wpx hpx : ℕ) : ℤ × ℤ :=
  if aspect_ratio wpx hpx > 1 then (320, ⌊(320 : ℚ) / aspect_ratio wpx hpx⌋)
  else (⌊(240 : ℚ) * aspect_ratio wpx hpx⌋, 240)

/-- C7 (counterexample): at intrinsic 1200x1000 px (aspect ratio 6/5) the
thumbnail is 320x266 pixels, whose height 266 exceeds the 240 of the claimed
320x240 bounding box. -/
theorem thumb_bounding_box_cex :
    thumb_size 1200 1000 = (320, 266) ∧ ¬((thumb_size 1200 1000).2 ≤ 240) := by
  norm_num [thumb_size, aspect_ratio]

/-- C7 (amended): the thumbnail fits within a 320x319 bounding box, not
320x240 (landscape heights reach up to 319 when the aspect ratio is just
above 1); the aspect ratio is matched only up to floor truncation of the
computed dimension: in landscape `height = ⌊320 / aspect⌋` and in
portrait/square `width = ⌊240 * aspect⌋` (so the truncated dimension can even
be 0 for extreme ratios). -/
theorem thumb_size_bounds (wpx hpx : ℕ) (hw : 0 < wpx) (hh : 0 < hpx) :
    (thumb_size wpx hpx).1 ≤ 320 ∧ (thumb_size wpx hpx).2 ≤ 319 ∧
    (1 < aspect_ratio wpx hpx →
      (thumb_size wpx hpx).1 = 320 ∧
      ((thumb_size wpx hpx).2 : ℚ) ≤ 320 / aspect_ratio wpx hpx ∧
      320 / aspect_ratio wpx hpx < (thumb_size wpx hpx).2 + 1) ∧
    (aspect_ratio wpx hpx ≤ 1 →
      (thumb_size wpx hpx).2 = 240 ∧
      ((thumb_size wpx hpx).1 : ℚ) ≤ 240 * aspect_ratio wpx hpx ∧
      240 * aspect_ratio wpx hpx < (thumb_size wpx hpx).1 + 1) := by
  have ha : 0 ≤ aspect_ratio wpx hpx := by
    unfold aspect_ratio
    positivity
  unfold thumb_size
  split_ifs with hcond
  · have hapos : (0 : ℚ) < aspect_ratio wpx hpx := by linarith
    have hlt : (320 : ℚ) / aspect_ratio wpx hpx < 320 := by
      rw [div_lt_iff₀ hapos]
      nlinarith
    have hfl : ⌊(320 : ℚ) / aspect_ratio wpx hpx⌋ ≤ 319 := by
      have := Int.floor_le_floor hlt.le
      have h320 : ⌊(320 : ℚ)⌋ = 320 := by norm_num
      have hstrict : ⌊(320 : ℚ) / aspect_ratio wpx hpx⌋ < 320 := by
        rw [Int.floor_lt]
        exact_mod_cast hlt
      omega
    refine ⟨by norm_num, hfl, fun _ => ⟨rfl, Int.floor_le _, ?_⟩, fun hle => absurd hcond (by linarith)⟩
    have := Int.lt_floor_add_one ((320 : ℚ) / aspect_ratio wpx hpx)
    push_cast
    push_cast at this
    linarith
  · push_neg at hcond
    have hle : (240 : ℚ) * aspect_ratio wpx hpx ≤ 240 := by nlinarith
    have hfl : ⌊(240 : ℚ) * aspect_ratio wpx hpx⌋ ≤ 320 := by
      have h1 : ⌊(240 : ℚ) * aspect_ratio wpx hpx⌋ ≤ ⌊(240 : ℚ)⌋ := Int.floor_le_floor hle
      have h2 : ⌊(240 : ℚ)⌋ = 240 := by norm_num
      omega
    refine ⟨hfl, by norm_num, fun hgt => absurd hgt (by linarith), fun _ => ⟨rfl, Int.floor_le _, ?_⟩⟩
    have := Int.lt_floor_add_one ((240 : ℚ) * aspect_ratio wpx hpx)
    push_cast
    push_cast at this
    linarith

theorem thumb_size_bounds_witness :
    (thumb_size 1200 1000).1 ≤ 320 ∧ (thumb_size 1200 1000).2 ≤ 319 ∧
    (1 < aspect_ratio 1200 1000 →
      (thumb_size 1200 1000).1 = 320 ∧
      ((thumb_size 1200 1000).2 : ℚ) ≤ 320 / aspect_ratio 1200 1000 ∧
      320 / aspect_ratio 1200 1000 < (thumb_size 1200 1000).2 + 1) ∧
    (aspect_ratio 1200 1000 ≤ 1 →
      (thumb_size 1200 1000).2 = 240 ∧
      ((thumb_size 1200 1000).1 : ℚ) ≤ 240 * aspect_ratio 1200 1000 ∧
      240 * aspect_ratio 1200 1000 < (thumb_size 1200 1000).1 + 1) :=
  thumb_size_bounds 1200 1000 (by norm_num) (by norm_num)

/-- C10: any valid intrinsic size whose aspect ratio is strictly below 1/240
takes the portrait branch and yields a zero-width thumbnail
`(0, 240)` — a degenerate placeholder image. -/
theorem thumb_zero_width (wpx hpx : ℕ) (hw : 0 < wpx) (hh : 0 < hpx)
    (hthin : aspect_ratio wpx hpx < 1 / 240) :
    (thumb_size wpx hpx).1 = 0 ∧ (thumb_size wpx hpx).2 = 240 := by
  have ha : 0 ≤ aspect_ratio wpx hpx := by
    unfold aspect_ratio
    positivity
  unfold thumb_size
  rw [if_neg (by push_neg; linarith)]
  refine ⟨Int.floor_eq_zero_iff.mpr ⟨by positivity, ?_⟩, rfl⟩
  linarith

theorem thumb_zero_width_witness :
    (0 < 1 ∧ 0 < 241 ∧ aspect_ratio 1 241 < 1 / 240) ∧
    (thumb_size 1 241).1 = 0 ∧ (thumb_size 1 241).2 = 240 :=
  ⟨⟨by norm_num, by norm_num, by norm_num [aspect_ratio]⟩,
   thumb_zero_width 1 241 (by norm_num) (by norm_num) (by norm_num [aspect_ratio])⟩

/-- One mediainfo track as `get_video_dimensions` inspects it: its
`track_type` string and its optional pixel dimensions (`none` models a
mediainfo attribute that is Python `None`). -/
structure Track where
  track_type : String
  width : Option ℕ
  height : Option ℕ
deriving DecidableEq, Repr

/-- Outcome of `MediaInfo.parse(video_path)` (app.py line 19): either the
backend raises some exception, or it yields a list of tracks. -/
inductive ParseResult where
  | raises
  | tracks (ts : List Track)
deriving DecidableEq, Repr

/-- Python truthiness test `if width and height:` (app.py line 27): both
dimensions present and non-zero. -/
def truthyDims (t : Track) : Bool :=
  t.width.getD 0 != 0 && t.height.getD 0 != 0

/-- The track loop of `get_video_dimensions` (app.py lines 22-28): scan the
tracks in order; on a `Video` track whose width and height are both truthy,
return them; otherwise keep scanning. -/
def findVideoDims : List Track → Option (ℕ × ℕ)
  | [] => none
  | t :: rest =>
    if t.track_type = "Video" ∧ truthyDims t = true then
      some (t.width.getD 0, t.height.getD 0)
    else findVideoDims rest

/-- `get_video_dimensions` (app.py lines 16-35): the whole body is wrapped in
`try/except`, so a raising backend yields `None, None`; otherwise the track
scan decides, with `None, None` when it finds nothing. -/
def get_video_dimensions : ParseResult → Option (ℕ × ℕ)
  | .raises => none
  | .tracks ts => findVideoDims ts

/-- The caller's fallback (app.py lines 93-99): substitute the fixed
1920x1080 default when the prober returned `None`. -/
def resolve_dimensions (probed : Option (ℕ × ℕ)) : ℕ × ℕ :=
  match probed with
  | none => (1920, 1080)
  | some wh => wh

/-- A probing failure: the backend raised, or no track is a video track with
truthy (present and non-zero) dimensions — covering unparseable containers,
containers with no video track, and zero-valued dimensions. -/
def probeFails : ParseResult → Prop
  | .raises => True
  | .tracks ts => ∀ t ∈ ts, ¬(t.track_type = "Video" ∧ truthyDims t = true)

lemma findVideoDims_eq_none {ts : List Track}
    (h : ∀ t ∈ ts, ¬(t.track_type = "Video" ∧ truthyDims t = true)) :
    findVideoDims ts = none := by
  induction ts with
  | nil => rfl
  | cons t rest ih =>
    unfold findVideoDims
    rw [if_neg (h t (List.mem_cons_self t rest))]
    exact ih fun t' ht' => h t' (List.mem_cons_of_mem t ht')

/-- C6: every probing failure (backend exception, unparseable container, no
video track, or zero-valued dimensions) yields `(None, None)` rather than a
propagated error, and the caller then substitutes the 1920x1080 default. -/
theorem probe_failure_falls_back (r : ParseResult) (hfail : probeFails r) :
    get_video_dimensions r = none ∧
    resolve_dimensions (get_video_dimensions r) = (1920, 1080) := by
  cases r with
  | raises => exact ⟨rfl, rfl⟩
  | tracks ts =>
    have h : findVideoDims ts = none := findVideoDims_eq_none hfail
    refine ⟨h, ?_⟩
    rw [get_video_dimensions, h]
    rfl

theorem probe_failure_falls_back_witness :
    get_video_dimensions (.tracks [⟨"Audio", none, none⟩, ⟨"Video", some 0, some 1080⟩]) = none ∧
    resolve_dimensions
        (get_video_dimensions (.tracks [⟨"Audio", none, none⟩, ⟨"Video", some 0, some 1080⟩]))
      = (1920, 1080) :=
  probe_failure_falls_back (.tracks [⟨"Audio", none, none⟩, ⟨"Video", some 0, some 1080⟩])
    (by unfold probeFails; decide)

/-- The first track of video type, in container track order. -/
def firstVideoTrack : List Track → Option Track
  | [] => none
  | t :: rest => if t.track_type = "Video" then some t else firstVideoTrack rest

/-- C8 (counterexample): in a container whose first video track has width 0
and whose second video track is 640x480, the prober skips the first video
track (falsy width) and returns the second track's dimensions — not the
width and height of the first video track in container order. -/
theorem probe_first_track_cex :
    firstVideoTrack [⟨"Video", some 0, some 1080⟩, ⟨"Video", some 640, some 480⟩]
      = some ⟨"Video", some 0, some 1080⟩ ∧
    get_video_dimensions (.tracks [⟨"Video", some 0, some 1080⟩, ⟨"Video", some 640, some 480⟩])
      = some (640, 480) := by
  decide

/-- C8 (amended): the prober returns the width and height of the first video
track *whose dimensions are truthy* (present and non-zero) — any earlier
video track with missing or zero dimensions is skipped — and both returned
values are strictly positive. -/
theorem probe_first_truthy_video (pre post : List Track) (t : Track)
    (hpre : ∀ t' ∈ pre, ¬(t'.track_type = "Video" ∧ truthyDims t' = true))
    (ht : t.track_type = "Video") (htd : truthyDims t = true) :
    get_video_dimensions (.tracks (pre ++ t :: post))
      = some (t.width.getD 0, t.height.getD 0) ∧
    0 < t.width.getD 0 ∧ 0 < t.height.getD 0 := by
  have hdims : t.width.getD 0 ≠ 0 ∧ t.height.getD 0 ≠ 0 := by
    unfold truthyDims at htd
    simp only [Bool.and_eq_true, bne_iff_ne, ne_eq] at htd
    exact htd
  refine ⟨?_, Nat.pos_of_ne_zero hdims.1, Nat.pos_of_ne_zero hdims.2⟩
  show findVideoDims (pre ++ t :: post) = _
  induction pre with
  | nil =>
    rw [List.nil_append]
    show (if t.track_type = "Video" ∧ truthyDims t = true
        then some (t.width.getD 0, t.height.getD 0) else findVideoDims post) = _
    rw [if_pos ⟨ht, htd⟩]
  | cons a pre ih =>
    rw [List.cons_append]
    show (if a.track_type = "Video" ∧ truthyDims a = true
        then some (a.width.getD 0, a.height.getD 0) else findVideoDims (pre ++ t :: post)) = _
    rw [if_neg (hpre a (List.mem_cons_self a pre))]
    exact ih fun t' ht' => hpre t' (List.mem_cons_of_mem a ht')

theorem probe_first_truthy_video_witness :
    get_video_dimensions
        (.tracks ([⟨"Audio", none, none⟩, ⟨"Video", some 0, some 1080⟩] ++
          (⟨"Video", some 640, some 480⟩ : Track) :: [])) =
      some ((⟨"Video", some 640, some 480⟩ : Track).width.getD 0,
            (⟨"Video", some 640, some 480⟩ : Track).height.getD 0) ∧
    0 < (⟨"Video", some 640, some 480⟩ : Track).width.getD 0 ∧
    0 < (⟨"Video", some 640, some 480⟩ : Track).height.getD 0 :=
  probe_first_truthy_video [⟨"Audio", none, none⟩, ⟨"Video", some 0, some 1080⟩] []
    ⟨"Video", some 640, some 480⟩ (by decide) (by decide) (by decide)

/-- The JSON value found under `"number"` in a slides entry: a Python `int`,
or any other JSON value (for which `isinstance(slide_num, int)` is false). -/
inductive JsonNum where
  | int (n : ℤ)
  | notInt
deriving DecidableEq, Repr

/-- One element of the request's `slides` list, abstracted to exactly what
the loop inspects before embedding: whether it is a dict carrying both the
`number` and `videoLink` keys, its `number` value, and whether the video
download returns HTTP 200. -/
structure SlideEntry where
  wellFormed : Bool
  number : JsonNum
  downloadOk : Bool
deriving DecidableEq, Repr

/-- The 400 error responses the loop can produce, each naming the offending
entry as the corresponding f-string does. -/
inductive UploadError where
  | invalidInfo (idx : ℕ)
  | invalidSlideNumber (num : JsonNum)
  | downloadFailed (num : ℤ)
deriving DecidableEq, Repr

/-- The per-entry loop of `upload_files` (app.py lines 72-154): reject a
malformed entry, reject a non-integer or out-of-range slide number, reject a
failed download, and otherwise embed (`add_movie` mutates the in-memory
document; the log records the embedded slide numbers in order) and continue.
Processing returns at the first failure, abandoning the rest of the list. -/
def processEntries (num_slides : ℕ) : List SlideEntry → ℕ → List ℤ →
    List ℤ × Except UploadError Unit
  | [], _, embeds => (embeds, .ok ())
  | e :: rest, idx, embeds =>
    if e.wellFormed = false then (embeds, .error (.invalidInfo idx))
    else
      match e.number with
      | .notInt => (embeds, .error (.invalidSlideNumber .notInt))
      | .int n =>
        if n < 1 ∨ n > (num_slides : ℤ) then (embeds, .error (.invalidSlideNumber (.int n)))
        else if e.downloadOk = false then (embeds, .error (.downloadFailed n))
        else processEntries num_slides rest (idx + 1) (embeds ++ [n])

/-- The endpoint's visible output (app.py lines 156-160): the saved document
(identified by its embed log) only when every entry succeeded; on any
failure, only the error response — the partially-mutated in-memory document
is discarded with the temporary directory and never sent. -/
def upload_files (num_slides : ℕ) (entries : List SlideEntry) :
    Except UploadError (List ℤ) :=
  match processEntries num_slides entries 0 [] with
  | (_, .error e) => .error e
  | (embeds, .ok _) => .ok embeds

/-- An entry the loop embeds and moves past: a well-formed dict whose slide
number is an integer within `1..num_slides` and whose download succeeds. -/
def validEntry (num_slides : ℕ) (e : SlideEntry) : Prop :=
  e.wellFormed = true ∧ e.downloadOk = true ∧
  ∃ n : ℤ, e.number = .int n ∧ 1 ≤ n ∧ n ≤ (num_slides : ℤ)

/-- A slide number the validation rejects: non-integer, zero, negative, or
greater than the slide count. -/
def badIndexNum (num_slides : ℕ) : JsonNum → Prop
  | .notInt => True
  | .int n => n < 1 ∨ n > (num_slides : ℤ)

/-- The slide number an entry embeds to (its integer `number`). -/
def entryNum (e : SlideEntry) : ℤ :=
  match e.number with
  | .int n => n
  | .notInt => 0

lemma processEntries_abort (num_slides : ℕ) (post : List SlideEntry) (e : SlideEntry)
    (hwf : e.wellFormed = true) (hbad : badIndexNum num_slides e.number) :
    ∀ pre : List SlideEntry, (∀ e' ∈ pre, validEntry num_slides e') →
      ∀ idx embeds, processEntries num_slides (pre ++ e :: post) idx embeds
        = (embeds ++ pre.map entryNum, .error (.invalidSlideNumber e.number)) := by
  intro pre
  induction pre with
  | nil =>
    intro _ idx embeds
    rw [List.nil_append, List.map_nil, List.append_nil]
    show (if e.wellFormed = false then _ else _) = _
    rw [if_neg (by rw [hwf]; simp)]
    cases hnum : e.number with
    | notInt => rfl
    | int n =>
      rw [hnum] at hbad
      exact if_pos hbad
  | cons a pre ih =>
    intro hvalid idx embeds
    obtain ⟨hawf, hadl, n, hanum, hn1, hn2⟩ := hvalid a (List.mem_cons_self a pre)
    rw [List.cons_append]
    show (if a.wellFormed = false then _ else _) = _
    rw [if_neg (by rw [hawf]; simp)]
    rw [hanum]
    show (if n < 1 ∨ n > (num_slides : ℤ) then _
      else if a.downloadOk = false then _ else _) = _
    rw [if_neg (by push_neg; omega), if_neg (by rw [hadl]; simp)]
    rw [ih (fun e' he' => hvalid e' (List.mem_cons_of_mem a he')) (idx + 1) (embeds ++ [n])]
    rw [List.map_cons, List.append_assoc]
    have : entryNum a = n := by
      unfold entryNum
      rw [hanum]
    rw [this]
    rfl

/-- C5: if every entry before position `k` is valid but entry `k` carries a
slide number that is non-integer, zero, negative, or greater than the slide
count, the batch aborts there: the caller receives the error naming that
entry's number (never a document), and the in-memory mutation log contains
only the earlier entries' embeds — nothing for entry `k` or any later
entry. -/
theorem upload_aborts_on_invalid_index (num_slides : ℕ) (pre post : List SlideEntry)
    (e : SlideEntry) (hpre : ∀ e' ∈ pre, validEntry num_slides e')
    (hwf : e.wellFormed = true) (hbad : badIndexNum num_slides e.number) :
    upload_files num_slides (pre ++ e :: post) = .error (.invalidSlideNumber e.number) ∧
    (processEntries num_slides (pre ++ e :: post) 0 []).1 = pre.map entryNum := by
  have h := processEntries_abort num_slides post e hwf hbad pre hpre 0 []
  constructor
  · unfold upload_files
    rw [h]
  · rw [h]
    rw [List.nil_append]

theorem upload_aborts_on_invalid_index_witness :
    upload_files 3 ([⟨true, .int 1, true⟩] ++ (⟨true, .int 0, true⟩ : SlideEntry) ::
        [⟨true, .int 2, true⟩])
      = .error (.invalidSlideNumber (⟨true, .int 0, true⟩ : SlideEntry).number) ∧
    (processEntries 3 ([⟨true, .int 1, true⟩] ++ (⟨true, .int 0, true⟩ : SlideEntry) ::
        [⟨true, .int 2, true⟩]) 0 []).1
      = List.map entryNum [⟨true, .int 1, true⟩] :=
  upload_aborts_on_invalid_index 3 [⟨true, .int 1, true⟩] [⟨true, .int 2, true⟩]
    ⟨true, .int 0, true⟩
    (fun e' he' => by
      rw [List.mem_singleton] at he'
      exact ⟨by rw [he'], by rw [he'], 1, by rw [he'], le_refl 1, by norm_num⟩)
    rfl (Or.inl (by norm_num))

end PptAddVideo
